import Mathlib

/-!
Verification development for the `unipackage/rpc` repository: a shallow
embedding of its EVM abstraction layer and retrying RPC engine, with
theorems settling the specification's claims.

The file embeds, directly from the TypeScript source in `src/evm/interface/index.ts`:
  - the `Result`/`EvmOutput` tagged union shape,
  - the declared return types of every `IEVM` interface method,
  - the `EvmTransactionOptions` record and `defaultTransactionOptions`,
  - the runtime type guard `isEvmTransactionOptions` (over a small model of
    JavaScript values, so that `typeof` semantics and property access on
    `null` are captured faithfully).

The backend implementations (`Web3Evm`, `EthersEvm`) and the RPC engine
implementation are part of the repository but their sources are not
available here; the definitions for those are modelled from the
specification and carry a doc comment saying so.
-/

/-! ## Result type

Modelled from the spec: `Result<T>` is the tagged union
`{ok: true, data: T} | {ok: false, error: ErrorInfo}` (it is imported from
the external `@unipackage/utils` package). The error taxonomy is the
spec's: transport, protocol, revert, encoding, configuration. -/

inductive ErrorKind where
  | transport
  | protocol
  | revert
  | encoding
  | configuration
deriving DecidableEq, Repr

structure ErrorInfo where
  kind : ErrorKind
  message : String
deriving DecidableEq, Repr

inductive Result (T : Type) where
  | success (data : T)
  | failure (error : ErrorInfo)
deriving DecidableEq, Repr

/-! ## A small model of JavaScript values

`isEvmTransactionOptions` in the source takes an `any`-typed argument and
inspects it with `typeof` and property reads.  We model just enough of
JavaScript for that code: the primitive values distinguished by `typeof`,
objects as association lists of named fields, and arrays (whose `typeof`
is also `"object"` and whose named non-index properties read as
`undefined` here).  Property access on `null` or `undefined` throws a
`TypeError`, which we model with `Except`. -/

inductive JSError where
  | typeError
deriving DecidableEq, Repr

inductive JSValue where
  | null
  | jsUndefined
  | num (n : Int)
  | str (s : String)
  | bigint (n : Int)
  | bool (b : Bool)
  | obj (fields : List (String × JSValue))
  | arr (elems : List JSValue)

/-- The JavaScript `typeof` operator on our value model; note
`typeof null === "object"`. -/
def typeofJS : JSValue → String
  | .null => "object"
  | .jsUndefined => "undefined"
  | .num _ => "number"
  | .str _ => "string"
  | .bigint _ => "bigint"
  | .bool _ => "boolean"
  | .obj _ => "object"
  | .arr _ => "object"

/-- JavaScript property read `base[name]` for a named (non-index) property:
throws `TypeError` on `null`/`undefined`, yields the field (or `undefined`
when absent) on objects, and `undefined` on arrays and primitives for the
property names we care about. -/
def getProp : JSValue → String → Except JSError JSValue
  | .null, _ => .error .typeError
  | .jsUndefined, _ => .error .typeError
  | .obj fields, name =>
      match fields.lookup name with
      | some v => .ok v
      | none => .ok .jsUndefined
  | _, _ => .ok .jsUndefined

/-- The per-field `typeof` checks of `isEvmTransactionOptions`, in source
order: each listed field must be `undefined` or of one of the listed
`typeof` strings. -/
def evmTransactionOptionsFieldTypes : List (String × List String) :=
  [ ("from", ["undefined", "string"])
  , ("to", ["undefined", "string"])
  , ("value", ["undefined", "number", "string", "bigint"])
  , ("gas", ["undefined", "number"])
  , ("maxFeePerGas", ["undefined", "number"])
  , ("maxPriorityFeePerGas", ["undefined", "number"])
  , ("gasPrice", ["undefined", "number"])
  , ("gasLimit", ["undefined", "number"])
  , ("nonce", ["undefined", "number"])
  , ("data", ["undefined", "string"])
  , ("type", ["undefined", "number"])
  , ("input", ["undefined", "string"])
  , ("chainId", ["undefined", "number"])
  , ("networkId", ["undefined", "number"])
  , ("confirmations", ["undefined", "number"])
  , ("privateKey", ["undefined", "string"])
  ]

/-- The conjunction of per-field checks, short-circuiting left to right as
the source's `&&` chain does. -/
def checkFields (o : JSValue) : List (String × List String) → Except JSError Bool
  | [] => .ok true
  | (name, tys) :: rest => do
      let v ← getProp o name
      if tys.contains (typeofJS v) then checkFields o rest else pure false

/-- Embedding of `isEvmTransactionOptions` (src/evm/interface/index.ts):
`typeof obj === "object" && (typeof obj.from === "undefined" || ...) && ...`.
The guard short-circuits, so non-objects yield `false` without any
property read; on `null` the first property read throws. -/
def isEvmTransactionOptions (o : JSValue) : Except JSError Bool :=
  if typeofJS o = "object" then
    checkFields o evmTransactionOptionsFieldTypes
  else
    .ok false

/-! ## EvmTransactionOptions and defaultTransactionOptions

Embedding of the `EvmTransactionOptions` interface: every field optional.
The `value` field's TypeScript type is `number | bigint | string`. -/

inductive EvmValueField where
  | num (n : Int)
  | big (n : Int)
  | str (s : String)
deriving DecidableEq, Repr

structure EvmTransactionOptions where
  «from» : Option String := none
  «to» : Option String := none
  value : Option EvmValueField := none
  gas : Option Int := none
  maxFeePerGas : Option Int := none
  maxPriorityFeePerGas : Option Int := none
  gasPrice : Option Int := none
  gasLimit : Option Int := none
  nonce : Option Int := none
  data : Option String := none
  type : Option Int := none
  input : Option String := none
  chainId : Option Int := none
  networkId : Option Int := none
  confirmations : Option Int := none
  privateKey : Option String := none
deriving DecidableEq, Repr

/-- Embedding of the module-level constant
`defaultTransactionOptions: EvmTransactionOptions = { confirmations: 0 }`. -/
def defaultTransactionOptions : EvmTransactionOptions :=
  { confirmations := some 0 }

/-! ## Declared return shapes of the IEVM interface

Each `IEVM` method's declared return type, read off the interface
declarations in src/evm/interface/index.ts. -/

inductive IEVMMethod where
  | call
  | decodeTxInputToEvmInput
  | encodeEvmInputToTxinput
  | encodeFunctionSignatureByAbi
  | encodeFunctionSignatureByFuntionName
  | generateWei
  | getContract
  | getContractAddress
  | getContractABI
  | getEvmType
  | getProviderUrl
  | getEtherProvider
  | getWeb3
  | send
  | sendSigned
  | sign
deriving DecidableEq, Repr

inductive DeclaredReturn where
  /-- the method's declared return type is `EvmOutput<T>` or `Result<T>` -/
  | result
  /-- the method's declared return type is `Promise<EvmOutput<T>>` -/
  | promiseOfResult
  /-- any other declared return type -/
  | plain
deriving DecidableEq, Repr

/-- The declared return type of each `IEVM` method, from the source:
`call`, `send`, `sendSigned`, `sign` return `Promise<EvmOutput<...>>`;
the decode/encode operations return `EvmOutput<...>`/`Result<string>`;
`generateWei` returns `string | bigint`; `getContract` returns
`Contract<...> | EtherContract | null`; `getContractAddress` returns
`string`; `getContractABI` returns `AbiFunctionFragment[] | JsonFragment[]`;
`getEvmType` returns `EvmType`; `getProviderUrl` returns
`string | undefined`; `getEtherProvider` returns
`ethers.AbstractProvider | null`; `getWeb3` returns `Web3 | null`. -/
def declaredReturn : IEVMMethod → DeclaredReturn
  | .call => .promiseOfResult
  | .decodeTxInputToEvmInput => .result
  | .encodeEvmInputToTxinput => .result
  | .encodeFunctionSignatureByAbi => .result
  | .encodeFunctionSignatureByFuntionName => .result
  | .generateWei => .plain
  | .getContract => .plain
  | .getContractAddress => .plain
  | .getContractABI => .plain
  | .getEvmType => .plain
  | .getProviderUrl => .plain
  | .getEtherProvider => .plain
  | .getWeb3 => .plain
  | .send => .promiseOfResult
  | .sendSigned => .promiseOfResult
  | .sign => .promiseOfResult

/-- Whether a method's declared return type is the tagged `Result` shape
(directly or under a promise). -/
def returnsResultShape (m : IEVMMethod) : Bool :=
  declaredReturn m == .result || declaredReturn m == .promiseOfResult

/-- The methods whose declared return type is the `Result` shape: the
call/send/sign operations (under a promise) and the encode/decode
operations (directly). -/
def resultShapedMethods : List IEVMMethod :=
  [ .call, .decodeTxInputToEvmInput, .encodeEvmInputToTxinput
  , .encodeFunctionSignatureByAbi, .encodeFunctionSignatureByFuntionName
  , .send, .sendSigned, .sign ]

/-! ## Wei conversion

Modelled from the spec: the backend implementations (`Web3Evm.generateWei`
and `EthersEvm.generateWei`) are not among the available sources.  Per the
spec, `generateWei(number, unit)` "converts a human-scale numeric value in
a given unit (e.g., whole-coin, milli-unit) into the smallest indivisible
on-chain unit, preserving exact integer precision".  We model the standard
ether denominations by their decimal exponents and the conversion as exact
natural-number multiplication by the corresponding power of ten. -/

inductive EtherUnits where
  | wei
  | kwei
  | mwei
  | gwei
  | szabo
  | finney
  | ether
deriving DecidableEq, Repr

/-- Decimal exponent of each denomination relative to wei. -/
def unitExponent : EtherUnits → Nat
  | .wei => 0
  | .kwei => 3
  | .mwei => 6
  | .gwei => 9
  | .szabo => 12
  | .finney => 15
  | .ether => 18

/-- Modelled from the spec: `generateWei` converts `n` units into the
base unit by exact integer multiplication. -/
def generateWei (n : Nat) (unit : EtherUnits) : Nat :=
  n * 10 ^ unitExponent unit

/-- The mathematical base-unit amount denoted by `n` units: `n` times ten
to the denomination's exponent. -/
def baseUnitAmount (n : Nat) (unit : EtherUnits) : Nat :=
  n * 10 ^ unitExponent unit

/-! ## ABI fragments, selectors and calldata

Modelled from the spec: the encode/decode implementations
(`encodeEvmInputToTxinput` / `decodeTxInputToEvmInput` in the two
backends) are not among the available sources.  Per the spec they are a
"bidirectional mapping between structured call parameters and raw
calldata" satisfying `decode(encode(x)) == x` for valid `x` with a known
ABI, with decoding of unknown or malformed calldata (e.g. wrong selector
length) failing with an `EncodingError`.

The model: calldata is a list of bytes; the first four bytes are the
selector, derived deterministically from the function's signature text;
each parameter is a 256-bit word encoded as 32 big-endian bytes.  The
selector derivation stands in for the 4-byte keccak prefix: a
deterministic pure function of the signature text. -/

/-- An ABI function fragment: its name, its input parameter count (all
parameters modelled as `uint256` words), and metadata that does not enter
the signature (declared outputs and state mutability). -/
structure AbiFragment where
  name : String
  arity : Nat
  outputs : List String := []
  stateMutability : String := ""
deriving DecidableEq, Repr

/-- The canonical signature text of a fragment:
`name(uint256,...,uint256)`. -/
def signatureText (f : AbiFragment) : String :=
  f.name ++ "(" ++ String.intercalate "," (List.replicate f.arity "uint256") ++ ")"

/-- A deterministic 32-bit hash of a string, standing in for the keccak
digest: a left fold over the characters. -/
def hash32 (s : String) : Nat :=
  s.data.foldl (fun h c => (h * 31 + c.toNat) % 2 ^ 32) 17

/-- Big-endian base-256 digits of `n`, zero-padded to width `w`. -/
def natToBE : Nat → Nat → List Nat
  | 0, _ => []
  | w + 1, n => natToBE w (n / 256) ++ [n % 256]

/-- Value of a big-endian byte list. -/
def beToNat (bs : List Nat) : Nat :=
  bs.foldl (fun acc b => acc * 256 + b) 0

/-- The four selector bytes of a fragment: the big-endian bytes of the
32-bit hash of its signature text. -/
def selectorBytes (f : AbiFragment) : List Nat :=
  natToBE 4 (hash32 (signatureText f))

/-- One hexadecimal digit character. -/
def hexDigitChar (n : Nat) : Char :=
  if n < 10 then Char.ofNat (48 + n) else Char.ofNat (87 + n)

/-- Two-character lowercase hex rendering of a byte. -/
def byteToHex (b : Nat) : String :=
  String.mk [hexDigitChar (b / 16 % 16), hexDigitChar (b % 16)]

/-- Lowercase hex rendering of a byte list. -/
def bytesToHex (bs : List Nat) : String :=
  String.join (bs.map byteToHex)

/-- Modelled from the spec: `encodeFunctionSignatureByAbi` derives the
4-byte selector from the fragment's declared signature as a `0x`-prefixed
hex string; a deterministic pure function of the signature text, shared by
both backends per the spec's semantic-equivalence contract. -/
def encodeFunctionSignatureByAbi (f : AbiFragment) : Result String :=
  .success ("0x" ++ bytesToHex (selectorBytes f))

/-- Structured parameters of a contract operation: the target function
name and its `uint256` arguments. -/
structure EvmInput where
  method : String
  params : List Nat
deriving DecidableEq, Repr

/-- Modelled from the spec: encoding structured call parameters into raw
calldata bytes.  Fails with an `EncodingError` when the ABI does not
declare the method, when the argument count does not match the declared
arity, or when an argument exceeds 256 bits. -/
def encodeEvmInputToTxinput (abi : List AbiFragment) (x : EvmInput) :
    Result (List Nat) :=
  match abi.find? (fun f => f.name == x.method) with
  | none => .failure ⟨.encoding, "unknown method"⟩
  | some f =>
      if x.params.length = f.arity ∧ ∀ p ∈ x.params, p < 256 ^ 32 then
        .success (selectorBytes f ++ (x.params.map (natToBE 32)).flatten)
      else
        .failure ⟨.encoding, "arguments do not match the ABI"⟩

/-- Decode `k` parameter words from a byte list; fails unless the list is
exactly `k` valid 32-byte big-endian words. -/
def decodeWords : Nat → List Nat → Option (List Nat)
  | 0, [] => some []
  | 0, _ :: _ => none
  | k + 1, bytes =>
      if bytes.length < 32 then none
      else
        let w := bytes.take 32
        if w.all (fun b => b < 256) then
          (decodeWords k (bytes.drop 32)).map (fun rest => beToNat w :: rest)
        else none

/-- Modelled from the spec: decoding raw calldata back into structured
call parameters.  Calldata shorter than the 4-byte selector, an unknown
selector, or a malformed parameter section each yield a failure `Result`
with an `EncodingError`, never partial data. -/
def decodeTxInputToEvmInput (abi : List AbiFragment) (tx : List Nat) :
    Result EvmInput :=
  if tx.length < 4 then .failure ⟨.encoding, "wrong selector length"⟩
  else
    match abi.find? (fun f => selectorBytes f == tx.take 4) with
    | none => .failure ⟨.encoding, "unknown selector"⟩
    | some f =>
        match decodeWords f.arity (tx.drop 4) with
        | none => .failure ⟨.encoding, "malformed parameter data"⟩
        | some ps => .success ⟨f.name, ps⟩

/-! ## RPC engine

Modelled from the spec: the RPC engine implementation (`rpc/interface`,
`rpc/implements/filecoin`, `rpc/withMethod`) is not among the available
sources; the package index re-exports `IRPC`, `RPCOptions`, `RPCRequest`,
`RPCResponse`, `RPCResultRulesOptions`, `RPCRetryOptions`.  Per the spec:
`request(method, params, retryOptions, resultRules)` attempts the call; on
transport failure it consults the retryable-error predicate and retries up
to the configured ceiling; an accepted payload is a success; a payload the
result rules reject is treated as an error and is itself retried when so
configured; exhausting retries yields a failure `Result` carrying the last
observed error.  The transport is modelled as a function from the attempt
index to that attempt's outcome; the engine returns its `Result` together
with the number of attempts it performed. -/

structure RPCError where
  code : Int
  message : String
deriving DecidableEq, Repr

structure RPCResponse where
  payload : String
deriving DecidableEq, Repr

structure RPCRetryOptions where
  maxAttempts : Nat
  delayMs : Nat := 0
  retryable : RPCError → Bool

structure RPCResultRulesOptions where
  acceptable : RPCResponse → Bool
  retryInvalid : Bool := false

structure RPCRequest where
  method : String
  params : List String
deriving DecidableEq, Repr

/-- The failure payload for a transport-level RPC error. -/
def rpcErrorInfo (e : RPCError) : ErrorInfo :=
  ⟨.transport, e.message⟩

/-- The failure payload for a response the result rules reject. -/
def invalidResultInfo (r : RPCResponse) : ErrorInfo :=
  ⟨.protocol, "result rejected: " ++ r.payload⟩

/-- The attempt loop of the engine: `fuel` attempts remain, `idx` is the
index of the next attempt.  Returns the `Result` and the number of
attempts performed. -/
def requestGo (transport : Nat → Except RPCError RPCResponse)
    (retry : RPCRetryOptions) (rules : RPCResultRulesOptions) :
    Nat → Nat → Result RPCResponse × Nat
  | _, 0 => (.failure ⟨.configuration, "retry ceiling must allow an attempt"⟩, 0)
  | idx, fuel + 1 =>
      match transport idx with
      | .error e =>
          if fuel != 0 && retry.retryable e then
            let (r, n) := requestGo transport retry rules (idx + 1) fuel
            (r, n + 1)
          else (.failure (rpcErrorInfo e), 1)
      | .ok resp =>
          if rules.acceptable resp then (.success resp, 1)
          else if fuel != 0 && rules.retryInvalid then
            let (r, n) := requestGo transport retry rules (idx + 1) fuel
            (r, n + 1)
          else (.failure (invalidResultInfo resp), 1)

/-- Modelled from the spec: the engine's `request` operation.  An empty
method name is a programming-contract violation and fails fast as a
configuration error before any attempt; otherwise the attempt loop runs
with the configured ceiling. -/
def request (req : RPCRequest) (transport : Nat → Except RPCError RPCResponse)
    (retry : RPCRetryOptions) (rules : RPCResultRulesOptions) :
    Result RPCResponse × Nat :=
  if req.method.isEmpty then
    (.failure ⟨.configuration, "method must be non-empty"⟩, 0)
  else
    requestGo transport retry rules 0 retry.maxAttempts

/-! ## EVM client state and accessors

Modelled from the spec: the backend client classes (`Web3Evm`,
`EthersEvm`) are not among the available sources.  Per the spec, a client
moves `Uninitialized -> Initialized(backend, contract, abi)` on
construction, with no further state transitions; accessors return
`null`/`undefined` before initialization and are stable thereafter. -/

inductive EvmType where
  | web3
  | ethers
deriving DecidableEq, Repr

structure EvmClientConfig where
  contractAddress : String
  contractABI : List AbiFragment
  providerUrl : String
  evmType : EvmType
deriving DecidableEq, Repr

/-- A client is either uninitialized (no configuration bound) or holds its
construction-time configuration. -/
structure EvmClientState where
  config : Option EvmClientConfig
deriving DecidableEq, Repr

/-- A freshly constructed, not-yet-connected client. -/
def freshClient : EvmClientState := ⟨none⟩

/-- Accessor: the bound contract handle (address paired with ABI), absent
before initialization. -/
def getContract (s : EvmClientState) : Option (String × List AbiFragment) :=
  s.config.map (fun c => (c.contractAddress, c.contractABI))

/-- Accessor: the contract address, absent before initialization. -/
def getContractAddress (s : EvmClientState) : Option String :=
  s.config.map (fun c => c.contractAddress)

/-- Accessor: the contract ABI, absent before initialization. -/
def getContractABI (s : EvmClientState) : Option (List AbiFragment) :=
  s.config.map (fun c => c.contractABI)

/-- Accessor: which backend produced the client, absent before
initialization. -/
def getEvmType (s : EvmClientState) : Option EvmType :=
  s.config.map (fun c => c.evmType)

/-- Accessor: the provider endpoint URL, absent before initialization. -/
def getProviderUrl (s : EvmClientState) : Option String :=
  s.config.map (fun c => c.providerUrl)

/-- Accessor: the ethers-native provider handle; present only on an
ethers-backed, initialized client. -/
def getEtherProvider (s : EvmClientState) : Option String :=
  s.config.bind (fun c =>
    if c.evmType = EvmType.ethers then some c.providerUrl else none)

/-- Accessor: the web3-native handle; present only on a web3-backed,
initialized client. -/
def getWeb3 (s : EvmClientState) : Option String :=
  s.config.bind (fun c =>
    if c.evmType = EvmType.web3 then some c.providerUrl else none)

/-- The capability operations a caller can invoke on a client. -/
inductive ClientOp where
  | callOp (input : EvmInput)
  | sendOp (input : EvmInput) (options : EvmTransactionOptions)
  | signOp (input : EvmInput) (options : EvmTransactionOptions)
  | sendSignedOp (signed : String)

/-- Modelled from the spec: after construction there are no further state
transitions — the client is stateless between calls, so every operation
leaves the client state unchanged. -/
def applyClientOp (s : EvmClientState) (_op : ClientOp) : EvmClientState := s

/-- Run a sequence of capability operations against a client. -/
def runClientOps (s : EvmClientState) (ops : List ClientOp) : EvmClientState :=
  ops.foldl applyClientOp s

/-! ## Supporting lemmas -/

/-- The big-endian rendering `natToBE w n` always has exactly `w` digits. -/
theorem natToBE_length (w : Nat) : ∀ n, (natToBE w n).length = w := by
  induction w with
  | zero => intro n; rfl
  | succ w ih => intro n; simp [natToBE, ih]

/-- Every digit produced by `natToBE` is a byte. -/
theorem natToBE_mem_lt (w : Nat) : ∀ n, ∀ b ∈ natToBE w n, b < 256 := by
  induction w with
  | zero => intro n b hb; simp [natToBE] at hb
  | succ w ih =>
      intro n b hb
      simp only [natToBE, List.mem_append, List.mem_singleton] at hb
      rcases hb with hb | hb
      · exact ih _ b hb
      · subst hb; exact Nat.mod_lt _ (by norm_num)

/-- Reading back the big-endian digits of `n` recovers `n`, provided `n`
fits in the width. -/
theorem beToNat_natToBE (w : Nat) : ∀ n, n < 256 ^ w → beToNat (natToBE w n) = n := by
  induction w with
  | zero =>
      intro n h
      simp [natToBE, beToNat]
      omega
  | succ w ih =>
      intro n h
      have hd : n / 256 < 256 ^ w := by
        have : n < 256 ^ w * 256 := by
          calc n < 256 ^ (w + 1) := h
          _ = 256 ^ w * 256 := by rw [pow_succ]
        omega
      have hsplit : beToNat (natToBE w (n / 256) ++ [n % 256])
          = beToNat (natToBE w (n / 256)) * 256 + n % 256 := by
        simp [beToNat, List.foldl_append]
      rw [natToBE, hsplit, ih _ hd]
      omega

/-- Decoding the concatenated 32-byte words of a parameter list recovers
the parameters. -/
theorem decodeWords_encode (ps : List Nat) (h : ∀ p ∈ ps, p < 256 ^ 32) :
    decodeWords ps.length ((ps.map (natToBE 32)).flatten) = some ps := by
  induction ps with
  | nil => rfl
  | cons p rest ih =>
      have hp : p < 256 ^ 32 := h p (List.mem_cons_self p rest)
      have hrest : ∀ q ∈ rest, q < 256 ^ 32 :=
        fun q hq => h q (List.mem_cons_of_mem p hq)
      have hlen : (natToBE 32 p).length = 32 := natToBE_length 32 p
      simp only [List.map_cons, List.flatten_cons, List.length_cons]
      rw [decodeWords]
      have hlen2 : (natToBE 32 p ++ (rest.map (natToBE 32)).flatten).length
          = 32 + (rest.map (natToBE 32)).flatten.length := by
        simp [hlen]
      have htake : (natToBE 32 p ++ (rest.map (natToBE 32)).flatten).take 32
          = natToBE 32 p := by
        have := List.take_left (natToBE 32 p) ((rest.map (natToBE 32)).flatten)
        rwa [hlen] at this
      have hdrop : (natToBE 32 p ++ (rest.map (natToBE 32)).flatten).drop 32
          = (rest.map (natToBE 32)).flatten := by
        have := List.drop_left (natToBE 32 p) ((rest.map (natToBE 32)).flatten)
        rwa [hlen] at this
      have hall : (natToBE 32 p).all (fun b => b < 256) = true := by
        simp only [List.all_eq_true, decide_eq_true_eq]
        exact natToBE_mem_lt 32 p
      simp only [hlen2, htake, hdrop, hall]
      have hnotlt : ¬ (32 + (rest.map (natToBE 32)).flatten.length < 32) := by omega
      simp only [if_neg hnotlt, if_pos rfl]
      rw [beToNat_natToBE 32 p hp, ih hrest]
      rfl

/-- A value's named field satisfies one field check of
`isEvmTransactionOptions`: the property read succeeds and the read value's
`typeof` is among the allowed type strings. -/
def fieldWellTyped (v : JSValue) (spec : String × List String) : Bool :=
  match getProp v spec.1 with
  | .error _ => false
  | .ok u => spec.2.contains (typeofJS u)

/-- When every field check passes, the short-circuit conjunction yields
`true` without throwing. -/
theorem checkFields_of_all (v : JSValue) :
    ∀ l : List (String × List String), l.all (fieldWellTyped v) = true →
      checkFields v l = .ok true := by
  intro l
  induction l with
  | nil => intro _; rfl
  | cons hd rest ih =>
      intro h
      obtain ⟨name, tys⟩ := hd
      rw [List.all_cons, Bool.and_eq_true] at h
      obtain ⟨h1, h2⟩ := h
      unfold fieldWellTyped at h1
      cases hget : getProp v name with
      | error e => rw [hget] at h1; simp at h1
      | ok u =>
          rw [hget] at h1
          have h1' : tys.contains (typeofJS u) = true := h1
          have hstep : checkFields v ((name, tys) :: rest)
              = if tys.contains (typeofJS u) = true then checkFields v rest
                else pure false := by
            simp only [checkFields, hget]
            rfl
          rw [hstep, if_pos h1']
          exact ih h2

/-- Running capability operations never changes the client state. -/
theorem runClientOps_eq (s : EvmClientState) :
    ∀ ops : List ClientOp, runClientOps s ops = s := by
  intro ops
  induction ops with
  | nil => rfl
  | cons op rest ih =>
      simp only [runClientOps, List.foldl_cons] at ih ⊢
      exact ih

/-- One unfolding step of the attempt loop. -/
theorem requestGo_succ (transport : Nat → Except RPCError RPCResponse)
    (retry : RPCRetryOptions) (rules : RPCResultRulesOptions) (idx f : Nat) :
    requestGo transport retry rules idx (f + 1)
      = match transport idx with
        | .error e =>
            if f != 0 && retry.retryable e then
              let (r, n) := requestGo transport retry rules (idx + 1) f
              (r, n + 1)
            else (.failure (rpcErrorInfo e), 1)
        | .ok resp =>
            if rules.acceptable resp then (.success resp, 1)
            else if f != 0 && rules.retryInvalid then
              let (r, n) := requestGo transport retry rules (idx + 1) f
              (r, n + 1)
            else (.failure (invalidResultInfo resp), 1) := rfl

/-- Against a transport whose every attempt fails with a retryable error,
the attempt loop consumes its entire fuel and reports the error of the
last attempt. -/
theorem requestGo_always_failing
    (transport : Nat → Except RPCError RPCResponse)
    (retry : RPCRetryOptions) (rules : RPCResultRulesOptions)
    (hall : ∀ i, ∃ e, transport i = .error e ∧ retry.retryable e = true) :
    ∀ fuel idx, 1 ≤ fuel →
      ∃ e, transport (idx + fuel - 1) = .error e ∧
        requestGo transport retry rules idx fuel
          = (.failure (rpcErrorInfo e), fuel) := by
  intro fuel
  induction fuel with
  | zero => intro idx h; omega
  | succ f ih =>
      intro idx _
      obtain ⟨e, he, hr⟩ := hall idx
      cases f with
      | zero =>
          refine ⟨e, by simpa using he, ?_⟩
          simp [requestGo, he]
      | succ f' =>
          obtain ⟨e', he', hgo⟩ := ih (idx + 1) (by omega)
          refine ⟨e', ?_, ?_⟩
          · have harith : idx + 1 + (f' + 1) - 1 = idx + (f' + 1 + 1) - 1 := by omega
            rwa [harith] at he'
          · rw [requestGo_succ, he]
            have hcond : (((f' + 1 : Nat) != 0) && retry.retryable e) = true := by
              simp [hr]
            simp only [hcond, if_true, hgo]

/-! ## Claims -/

/-- C1 (counterexample): the claim that every public `IEVM` operation
returns the tagged `Result` shape fails on the interface as declared:
`generateWei` is declared to return `string | bigint` and
`getContractAddress` to return `string`, neither the `Result` shape nor a
promise of it. -/
theorem iEVM_generateWei_not_result_shaped :
    returnsResultShape IEVMMethod.generateWei = false ∧
    returnsResultShape IEVMMethod.getContractAddress = false := by
  exact ⟨rfl, rfl⟩

/-- C1 (amended): exactly the call/send/sign operations and the
encode/decode operations are declared with the tagged `Result` shape
(directly or under a promise); `generateWei` and the accessors
(`getContract`, `getContractAddress`, `getContractABI`, `getEvmType`,
`getProviderUrl`, `getEtherProvider`, `getWeb3`) are declared with plain
(possibly nullable) types. -/
theorem iEVM_return_shape_characterization :
    ∀ m : IEVMMethod, returnsResultShape m = resultShapedMethods.contains m := by
  intro m
  cases m <;> rfl

/-- C2 (counterexample): `isEvmTransactionOptions` does not reject a
fee-model conflict: on an object with both the legacy `gasPrice` and the
EIP-1559 `maxFeePerGas` set (as numbers) it returns `true`, not `false`. -/
theorem isEvmTransactionOptions_fee_conflict_accepted :
    isEvmTransactionOptions
      (JSValue.obj [("gasPrice", JSValue.num 1), ("maxFeePerGas", JSValue.num 2)])
      = Except.ok true := by
  rfl

/-- C2 (amended): `isEvmTransactionOptions` performs only independent
per-field `typeof` checks and never compares the fee fields against each
other: every object carrying both `gasPrice` and `maxFeePerGas` as
numbers (and nothing else) passes the guard. -/
theorem isEvmTransactionOptions_no_fee_model_check :
    ∀ gp mf : Int,
      isEvmTransactionOptions
        (JSValue.obj [("gasPrice", JSValue.num gp), ("maxFeePerGas", JSValue.num mf)])
        = Except.ok true := by
  intro gp mf
  rfl

/-- C8: `isEvmTransactionOptions` is not total: since
`typeof null === "object"`, the guard does not short-circuit on `null`,
and the first property read `obj.from` throws a `TypeError` instead of
the function returning `false`. -/
theorem isEvmTransactionOptions_null_throws :
    isEvmTransactionOptions JSValue.null = Except.error JSError.typeError := by
  rfl

/-- C10: the module-level `defaultTransactionOptions` populates exactly
the `confirmations` field, with the value `0`; every other
`EvmTransactionOptions` field is absent, so the default `send` behavior
is to return on submission without awaiting confirmations. -/
theorem defaultTransactionOptions_only_confirmations :
    defaultTransactionOptions.confirmations = some 0 ∧
    defaultTransactionOptions.«from» = none ∧
    defaultTransactionOptions.«to» = none ∧
    defaultTransactionOptions.value = none ∧
    defaultTransactionOptions.gas = none ∧
    defaultTransactionOptions.maxFeePerGas = none ∧
    defaultTransactionOptions.maxPriorityFeePerGas = none ∧
    defaultTransactionOptions.gasPrice = none ∧
    defaultTransactionOptions.gasLimit = none ∧
    defaultTransactionOptions.nonce = none ∧
    defaultTransactionOptions.data = none ∧
    defaultTransactionOptions.type = none ∧
    defaultTransactionOptions.input = none ∧
    defaultTransactionOptions.chainId = none ∧
    defaultTransactionOptions.networkId = none ∧
    defaultTransactionOptions.privateKey = none := by
  refine ⟨rfl, rfl, rfl, rfl, rfl, rfl, rfl, rfl, rfl, rfl, rfl, rfl, rfl, rfl, rfl, rfl⟩

/-- C5: `generateWei` converts with exact integer precision:
`generateWei 1 ether` is the exact integer `10 ^ 18`,
`generateWei 2 gwei` is the exact integer `2000000000`, and two
(number, unit) pairs denoting distinct base-unit amounts produce distinct
results. -/
theorem generateWei_exactness_and_injectivity :
    generateWei 1 EtherUnits.ether = 10 ^ 18 ∧
    generateWei 2 EtherUnits.gwei = 2000000000 ∧
    ∀ (n₁ : Nat) (u₁ : EtherUnits) (n₂ : Nat) (u₂ : EtherUnits),
      baseUnitAmount n₁ u₁ ≠ baseUnitAmount n₂ u₂ →
      generateWei n₁ u₁ ≠ generateWei n₂ u₂ := by
  refine ⟨by norm_num [generateWei, unitExponent],
          by norm_num [generateWei, unitExponent], ?_⟩
  intro n₁ u₁ n₂ u₂ h
  simpa [generateWei, baseUnitAmount] using h

/-- Witness for C5 at the concrete pairs (1, ether) and (2, gwei). -/
theorem generateWei_exactness_witness :
    baseUnitAmount 1 EtherUnits.ether ≠ baseUnitAmount 2 EtherUnits.gwei ∧
    generateWei 1 EtherUnits.ether ≠ generateWei 2 EtherUnits.gwei := by
  have h : baseUnitAmount 1 EtherUnits.ether ≠ baseUnitAmount 2 EtherUnits.gwei := by
    norm_num [baseUnitAmount, unitExponent]
  exact ⟨h, generateWei_exactness_and_injectivity.2.2 1 EtherUnits.ether
              2 EtherUnits.gwei h⟩

/-- C6: on a freshly constructed, not-yet-connected client every accessor
returns the absent value (the model's `none`, standing for
`null`/`undefined`) — the accessors are total functions, so none throws —
and after initialization every accessor is stable: running any sequence of
capability operations leaves every accessor's value unchanged. -/
theorem accessors_uninitialized_none_and_stable :
    (getContract freshClient = none ∧
     getContractAddress freshClient = none ∧
     getContractABI freshClient = none ∧
     getEvmType freshClient = none ∧
     getProviderUrl freshClient = none ∧
     getEtherProvider freshClient = none ∧
     getWeb3 freshClient = none) ∧
    ∀ (s : EvmClientState) (ops : List ClientOp),
      getContract (runClientOps s ops) = getContract s ∧
      getContractAddress (runClientOps s ops) = getContractAddress s ∧
      getContractABI (runClientOps s ops) = getContractABI s ∧
      getEvmType (runClientOps s ops) = getEvmType s ∧
      getProviderUrl (runClientOps s ops) = getProviderUrl s ∧
      getEtherProvider (runClientOps s ops) = getEtherProvider s ∧
      getWeb3 (runClientOps s ops) = getWeb3 s := by
  refine ⟨⟨rfl, rfl, rfl, rfl, rfl, rfl, rfl⟩, ?_⟩
  intro s ops
  rw [runClientOps_eq]
  exact ⟨rfl, rfl, rfl, rfl, rfl, rfl, rfl⟩

/-- C7: the selector derivation is a deterministic pure function of the
declared signature text: any two ABI fragments with the same name and the
same parameter list — regardless of other metadata such as declared
outputs or state mutability — yield the identical selector string. -/
theorem encodeFunctionSignatureByAbi_deterministic :
    ∀ f g : AbiFragment, f.name = g.name → f.arity = g.arity →
      encodeFunctionSignatureByAbi f = encodeFunctionSignatureByAbi g := by
  intro f g h1 h2
  simp [encodeFunctionSignatureByAbi, selectorBytes, signatureText, h1, h2]

/-- Witness for C7: two fragments declaring `transfer(uint256,uint256)`
that differ in outputs and state mutability get the same selector. -/
theorem encodeFunctionSignatureByAbi_deterministic_witness :
    ("transfer" : String) = "transfer" ∧ (2 : Nat) = 2 ∧
    encodeFunctionSignatureByAbi ⟨"transfer", 2, ["bool"], "nonpayable"⟩
      = encodeFunctionSignatureByAbi ⟨"transfer", 2, [], "view"⟩ := by
  exact ⟨rfl, rfl,
    encodeFunctionSignatureByAbi_deterministic
      ⟨"transfer", 2, ["bool"], "nonpayable"⟩ ⟨"transfer", 2, [], "view"⟩ rfl rfl⟩

/-- C9: `isEvmTransactionOptions` performs only per-field type checks and
requires no field to be present: every value of `typeof` `"object"` whose
listed fields are each absent or of a listed type passes the guard — in
particular the empty object and arrays carrying none of the listed
fields. -/
theorem isEvmTransactionOptions_welltyped_accepted :
    ∀ v : JSValue, typeofJS v = "object" →
      evmTransactionOptionsFieldTypes.all (fieldWellTyped v) = true →
      isEvmTransactionOptions v = Except.ok true := by
  intro v h1 h2
  rw [isEvmTransactionOptions, if_pos h1]
  exact checkFields_of_all v _ h2

/-- Witness for C9 at the empty object and at a field-free array. -/
theorem isEvmTransactionOptions_welltyped_witness :
    typeofJS (JSValue.obj []) = "object" ∧
    evmTransactionOptionsFieldTypes.all (fieldWellTyped (JSValue.obj [])) = true ∧
    isEvmTransactionOptions (JSValue.obj []) = Except.ok true ∧
    isEvmTransactionOptions (JSValue.arr [JSValue.num 7]) = Except.ok true := by
  refine ⟨rfl, rfl, ?_, ?_⟩
  · exact isEvmTransactionOptions_welltyped_accepted (JSValue.obj []) rfl rfl
  · exact isEvmTransactionOptions_welltyped_accepted (JSValue.arr [JSValue.num 7]) rfl rfl

/-- C3: for every `EvmInput` whose method the ABI declares (with matching
arity, word-sized arguments, and selector lookup resolving back to the
declaring fragment), decoding the encoding recovers the input exactly;
calldata shorter than the 4-byte selector fails with the
wrong-selector-length `EncodingError`; calldata with an unknown selector
fails with the unknown-selector `EncodingError` — never partial data and
never an exception. -/
theorem decode_encode_roundtrip_and_malformed :
    ∀ (abi : List AbiFragment) (x : EvmInput) (f : AbiFragment)
      (short badSel : List Nat),
      abi.find? (fun g => g.name == x.method) = some f →
      abi.find? (fun g => selectorBytes g == selectorBytes f) = some f →
      x.params.length = f.arity →
      (∀ p ∈ x.params, p < 256 ^ 32) →
      short.length < 4 →
      ¬ badSel.length < 4 →
      abi.find? (fun g => selectorBytes g == badSel.take 4) = none →
      (∃ tx, encodeEvmInputToTxinput abi x = .success tx ∧
             decodeTxInputToEvmInput abi tx = .success x) ∧
      decodeTxInputToEvmInput abi short
        = .failure ⟨.encoding, "wrong selector length"⟩ ∧
      decodeTxInputToEvmInput abi badSel
        = .failure ⟨.encoding, "unknown selector"⟩ := by
  intro abi x f short badSel hname hsel hlen hlt hshort hbadlen hbadsel
  have hselLen : (selectorBytes f).length = 4 := natToBE_length 4 _
  refine ⟨⟨selectorBytes f ++ (x.params.map (natToBE 32)).flatten, ?_, ?_⟩, ?_, ?_⟩
  · rw [encodeEvmInputToTxinput, hname]
    exact if_pos ⟨hlen, hlt⟩
  · have hlen4 : ¬ (selectorBytes f ++ (x.params.map (natToBE 32)).flatten).length < 4 := by
      simp [hselLen]
    have htake : (selectorBytes f ++ (x.params.map (natToBE 32)).flatten).take 4
        = selectorBytes f := by
      have h := List.take_left (selectorBytes f) ((x.params.map (natToBE 32)).flatten)
      rwa [hselLen] at h
    have hdrop : (selectorBytes f ++ (x.params.map (natToBE 32)).flatten).drop 4
        = (x.params.map (natToBE 32)).flatten := by
      have h := List.drop_left (selectorBytes f) ((x.params.map (natToBE 32)).flatten)
      rwa [hselLen] at h
    have hwords : decodeWords f.arity ((x.params.map (natToBE 32)).flatten)
        = some x.params := by
      rw [← hlen]
      exact decodeWords_encode x.params hlt
    have hfname : f.name = x.method := by
      have h := List.find?_some hname
      simpa using h
    rw [decodeTxInputToEvmInput, if_neg hlen4]
    simp only [htake, hsel, hdrop, hwords]
    cases x with
    | mk m ps => simp_all
  · rw [decodeTxInputToEvmInput, if_pos hshort]
  · rw [decodeTxInputToEvmInput, if_neg hbadlen]
    simp only [hbadsel]

/-- Witness for C3: a two-function ABI, the input `foo(1, 2)`, a 3-byte
calldata (shorter than a selector) and a 4-byte calldata whose selector
no ABI entry matches. -/
theorem decode_encode_roundtrip_witness :
    ([⟨"foo", 2, [], ""⟩, ⟨"bar", 0, [], ""⟩] : List AbiFragment).find?
        (fun g => g.name == EvmInput.method ⟨"foo", [1, 2]⟩)
      = some ⟨"foo", 2, [], ""⟩ ∧
    ([⟨"foo", 2, [], ""⟩, ⟨"bar", 0, [], ""⟩] : List AbiFragment).find?
        (fun g => selectorBytes g == selectorBytes ⟨"foo", 2, [], ""⟩)
      = some ⟨"foo", 2, [], ""⟩ ∧
    (∃ tx, encodeEvmInputToTxinput [⟨"foo", 2, [], ""⟩, ⟨"bar", 0, [], ""⟩]
              ⟨"foo", [1, 2]⟩ = .success tx ∧
           decodeTxInputToEvmInput [⟨"foo", 2, [], ""⟩, ⟨"bar", 0, [], ""⟩] tx
              = .success ⟨"foo", [1, 2]⟩) ∧
    decodeTxInputToEvmInput [⟨"foo", 2, [], ""⟩, ⟨"bar", 0, [], ""⟩] [0, 0, 0]
      = .failure ⟨.encoding, "wrong selector length"⟩ ∧
    decodeTxInputToEvmInput [⟨"foo", 2, [], ""⟩, ⟨"bar", 0, [], ""⟩] [0, 0, 0, 0]
      = .failure ⟨.encoding, "unknown selector"⟩ := by
  have h := decode_encode_roundtrip_and_malformed
    [⟨"foo", 2, [], ""⟩, ⟨"bar", 0, [], ""⟩] ⟨"foo", [1, 2]⟩ ⟨"foo", 2, [], ""⟩
    [0, 0, 0] [0, 0, 0, 0]
    rfl rfl rfl (by decide) (by decide) (by decide) rfl
  exact ⟨rfl, rfl, h.1, h.2.1, h.2.2⟩

/-- A transport whose every attempt fails with the same connection error. -/
def downTransport : Nat → Except RPCError RPCResponse :=
  fun _ => .error ⟨-1, "connection refused"⟩

/-- C4 (counterexample): the claim is false for retry configurations whose
retryable-error predicate classifies the observed errors as fatal: with
`maxAttempts = 2` and an always-failing transport whose errors the
predicate rejects, the engine performs one attempt, not two. -/
theorem request_nonretryable_single_attempt :
    request ⟨"eth_call", []⟩ downTransport
        ⟨2, 0, fun _ => false⟩ ⟨fun _ => true, false⟩
      = (.failure ⟨.transport, "connection refused"⟩, 1) ∧
    (request ⟨"eth_call", []⟩ downTransport
        ⟨2, 0, fun _ => false⟩ ⟨fun _ => true, false⟩).2 ≠ 2 := by
  exact ⟨rfl, by decide⟩

/-- C4 (amended): for a retry configuration with `maxAttempts = N ≥ 1`, a
non-empty method name, and an always-failing transport whose errors the
retryable predicate accepts, `request` performs exactly `N` attempts —
never more, and being a total function it never hangs and lets no
exception escape — and returns a failure `Result` carrying the last
observed transport error. -/
theorem request_retry_ceiling_exact :
    ∀ (req : RPCRequest) (transport : Nat → Except RPCError RPCResponse)
      (retry : RPCRetryOptions) (rules : RPCResultRulesOptions),
      req.method.isEmpty = false →
      1 ≤ retry.maxAttempts →
      (∀ i, ∃ e, transport i = .error e ∧ retry.retryable e = true) →
      ∃ e, transport (retry.maxAttempts - 1) = .error e ∧
        request req transport retry rules
          = (.failure (rpcErrorInfo e), retry.maxAttempts) := by
  intro req transport retry rules hm hN hall
  obtain ⟨e, he, hgo⟩ :=
    requestGo_always_failing transport retry rules hall retry.maxAttempts 0 hN
  refine ⟨e, ?_, ?_⟩
  · simpa using he
  · have hne : ¬ (req.method.isEmpty = true) := by simp [hm]
    rw [request, if_neg hne]
    exact hgo

/-- Witness for C4's amended claim: three attempts against a permanently
failing transport with an accept-all retry predicate. -/
theorem request_retry_ceiling_exact_witness :
    ("eth_call" : String).isEmpty = false ∧
    1 ≤ (3 : Nat) ∧
    ∃ e, downTransport (3 - 1) = .error e ∧
      request ⟨"eth_call", []⟩ downTransport
          ⟨3, 0, fun _ => true⟩ ⟨fun _ => true, false⟩
        = (.failure (rpcErrorInfo e), 3) := by
  refine ⟨rfl, by norm_num, ?_⟩
  exact request_retry_ceiling_exact ⟨"eth_call", []⟩ downTransport
    ⟨3, 0, fun _ => true⟩ ⟨fun _ => true, false⟩ rfl (by norm_num)
    (fun i => ⟨⟨-1, "connection refused"⟩, rfl, rfl⟩)
